import Mathlib

/-!
Verification development for the Friendlytime server (`src/unnamed/part_000`):
an Express + WebSocket chat relay backed by a SQLite store.

Shallow embedding conventions:
* SQLite tables (`users`, `bookings`, `messages`) become Lean lists in
  insertion (rowid) order, together with the next `AUTOINCREMENT` id.
* `DATETIME DEFAULT CURRENT_TIMESTAMP` becomes a `Nat` timestamp supplied to
  each operation as the store's clock reading at insert time.
* The `Map<number, WebSocket>` registry `clients` becomes an association list
  from user id to an abstract socket handle id; `Map.set` / `Map.delete` /
  `Map.get` semantics are modelled exactly (one binding per key).
* A `WebSocket`'s `readyState` is looked up in a transport table
  (handle id to state); unknown handles read as `CLOSED`.
* A throwing `better-sqlite3` `run()` call is modelled by a Boolean
  `insertOk` selecting `Except.ok` / `Except.error`; `ws.send` on an `OPEN`
  socket never throws synchronously (failures surface asynchronously), so a
  push is recorded as the payload handed to `send`.
* `REAL` (user rating) is modelled as `Rat`.
-/

/-- Role column of `users`: `CHECK(role IN ('customer', 'friend'))`. -/
inductive Role where
  | customer
  | friend
deriving DecidableEq, Repr

/-- A row of the `users` table (nullable columns are `Option`). -/
structure User where
  id : Nat
  name : String
  email : String
  role : Role
  city : Option String
  age : Option Nat
  languages : Option String
  interests : Option String
  about : Option String
  hourly_rate : Option Nat
  verified : Nat
  rating : Rat
deriving DecidableEq, Repr

/-- A row of the `bookings` table. -/
structure Booking where
  id : Nat
  customer_id : Nat
  friend_id : Nat
  activity : String
  duration : String
  status : String
  created_at : Nat
deriving DecidableEq, Repr

/-- A row of the `messages` table. -/
structure Message where
  id : Nat
  sender_id : Nat
  receiver_id : Nat
  content : String
  created_at : Nat
deriving DecidableEq, Repr

/-- The server-to-client push payload
`{type: "chat", senderId, content, createdAt}` built in the chat branch. -/
structure PushPayload where
  type : String
  senderId : Nat
  content : String
  createdAt : Nat
deriving DecidableEq, Repr

/-- `WebSocket.readyState` values of the `ws` library. -/
inductive WsReadyState where
  | CONNECTING
  | OPEN
  | CLOSING
  | CLOSED
deriving DecidableEq, Repr

/-- The durable SQLite state: the three tables in rowid order plus the next
`AUTOINCREMENT` id of the two tables the server inserts into. -/
structure DBState where
  users : List User
  bookings : List Booking
  nextBookingId : Nat
  messages : List Message
  nextMessageId : Nat
deriving DecidableEq, Repr

/-- The `clients` registry: `Map<number, WebSocket>`, with sockets abstracted
to handle ids. -/
abbrev ClientMap := List (Nat × Nat)

/-- The transport's view: `readyState` of each socket handle. -/
abbrev SocketTable := List (Nat × WsReadyState)

/-- In-memory server state: the store, the `clients` registry, and the
transport table of socket states. -/
structure ServerState where
  db : DBState
  clients : ClientMap
  sockets : SocketTable
deriving DecidableEq, Repr

/-- `clients.get(u)`: the handle currently bound to user `u`, if any. -/
def clientsLookup (m : ClientMap) (u : Nat) : Option Nat :=
  (m.find? (fun e => e.fst == u)).map Prod.snd

/-- `clients.delete(u)`: drop the binding for `u` (no-op when absent). -/
def clientsDelete (m : ClientMap) (u : Nat) : ClientMap :=
  m.filter (fun e => e.fst != u)

/-- `clients.set(u, w)`: bind `u` to `w`, replacing any prior binding. -/
def clientsSet (m : ClientMap) (u : Nat) (w : Nat) : ClientMap :=
  clientsDelete m u ++ [(u, w)]

/-- `readyState` of handle `w`; a handle the transport no longer knows reads
as `CLOSED`. -/
def wsReadyState (t : SocketTable) (w : Nat) : WsReadyState :=
  match t.find? (fun e => e.fst == w) with
  | some e => e.snd
  | none => WsReadyState.CLOSED

/-- The `auth` branch of the message handler, run on socket `ws` whose
captured per-connection variable is `userId`:
`userId = message.userId; if (userId) clients.set(userId, ws)`.
JavaScript truthiness of a number: `0` is falsy.  Returns the new
per-connection `userId` and the new registry. -/
def handleAuth (m : ClientMap) (ws : Nat) (msgUserId : Nat) :
    Option Nat × ClientMap :=
  (some msgUserId, if msgUserId ≠ 0 then clientsSet m msgUserId ws else m)

/-- The `close` handler of a connection whose captured per-connection
variable is `userId`: `if (userId) clients.delete(userId)`. -/
def handleClose (m : ClientMap) (userId : Option Nat) : ClientMap :=
  match userId with
  | some u => if u ≠ 0 then clientsDelete m u else m
  | none => m

/-- `INSERT INTO messages (sender_id, receiver_id, content) VALUES (?, ?, ?)`;
`id` is the next `AUTOINCREMENT` value and `created_at` the store clock. -/
def insertMessage (db : DBState) (dbNow : Nat) (senderId receiverId : Nat)
    (content : String) : DBState :=
  { db with
    messages := db.messages ++
      [{ id := db.nextMessageId, sender_id := senderId,
         receiver_id := receiverId, content := content,
         created_at := dbNow }],
    nextMessageId := db.nextMessageId + 1 }

/-- The push step of the `chat` branch (`const receiverWs = clients.get(...)`
followed by the `readyState === WebSocket.OPEN` guard and `send`): the
payload handed to `send`, if any.  `createdAt` is
`new Date().toISOString()` read at push time, passed in as `pushNow`. -/
def pushToReceiver (st : ServerState) (senderId receiverId : Nat)
    (content : String) (pushNow : Nat) : Option PushPayload :=
  match clientsLookup st.clients receiverId with
  | some w =>
      if wsReadyState st.sockets w = WsReadyState.OPEN then
        some { type := "chat", senderId := senderId, content := content,
               createdAt := pushNow }
      else none
  | none => none

/-- The successful path of the `chat` branch: save to DB, then attempt the
push.  Returns the new state and the payload handed to `send`, if any.
(`ws.send` on an `OPEN` socket reports failures asynchronously, so the
handler observes no outcome of the send itself.) -/
def relayChat (st : ServerState) (dbNow pushNow : Nat)
    (senderId receiverId : Nat) (content : String) :
    ServerState × Option PushPayload :=
  let st' := { st with db := insertMessage st.db dbNow senderId receiverId content }
  (st', pushToReceiver st' senderId receiverId content pushNow)

/-- The whole `chat` branch with the fallibility of the `INSERT` made
explicit: `insertOk = false` models `better-sqlite3`'s `run()` throwing, in
which case the handler aborts before the push lookup is reached. -/
def handleChat (st : ServerState) (insertOk : Bool) (dbNow pushNow : Nat)
    (senderId receiverId : Nat) (content : String) :
    Except String (ServerState × Option PushPayload) :=
  if insertOk then
    Except.ok (relayChat st dbNow pushNow senderId receiverId content)
  else
    Except.error "SqliteError: message INSERT failed"

/-- The `WHERE` clause of `GET /api/messages/:userId/:otherId`:
`(sender_id = ? AND receiver_id = ?) OR (sender_id = ? AND receiver_id = ?)`
with parameters `(userId, otherId, otherId, userId)`. -/
def pairMatch (userId otherId : Nat) (m : Message) : Bool :=
  (m.sender_id == userId && m.receiver_id == otherId) ||
  (m.sender_id == otherId && m.receiver_id == userId)

/-- Insert `m` before the first element whose `created_at` is at least
`m.created_at` (stable insertion for the sort below). -/
def insertByCreatedAt (m : Message) : List Message → List Message
  | [] => [m]
  | x :: xs =>
      if x.created_at < m.created_at then x :: insertByCreatedAt m xs
      else m :: x :: xs

/-- Stable sort by `created_at`, modelling `ORDER BY created_at ASC`. -/
def sortByCreatedAt : List Message → List Message
  | [] => []
  | x :: xs => insertByCreatedAt x (sortByCreatedAt xs)

/-- `GET /api/messages/:userId/:otherId`: the pair's messages ordered by
`created_at` ascending. -/
def getMessages (db : DBState) (userId otherId : Nat) : List Message :=
  sortByCreatedAt (db.messages.filter (pairMatch userId otherId))

/-- `SELECT * FROM users WHERE id = ? AND role = 'friend'` with `.get`:
the first matching row, if any.  `GET /api/friends/:id` answers 404 exactly
when this is `none`. -/
def getFriend (db : DBState) (id : Nat) : Option User :=
  db.users.find? (fun u => u.id == id && decide (u.role = Role.friend))

/-- `POST /api/bookings`: insert the booking (`status` defaults to
`'pending'`, `created_at` to the store clock) and return
`info.lastInsertRowid`. -/
def createBooking (db : DBState) (dbNow : Nat) (customerId friendId : Nat)
    (activity duration : String) : DBState × Nat :=
  ({ db with
     bookings := db.bookings ++
       [{ id := db.nextBookingId, customer_id := customerId,
          friend_id := friendId, activity := activity, duration := duration,
          status := "pending", created_at := dbNow }],
     nextBookingId := db.nextBookingId + 1 },
   db.nextBookingId)

/-- Primary-key lookup in the `bookings` table
(`SELECT * FROM bookings WHERE id = ?`). -/
def getBookingById (db : DBState) (id : Nat) : Option Booking :=
  db.bookings.find? (fun b => b.id == id)

/-- One inbound chat event for the relay: the chat fields plus the two clock
readings of its processing (store clock at `INSERT`, wall clock at push). -/
structure ChatEvent where
  senderId : Nat
  receiverId : Nat
  content : String
  dbTime : Nat
  pushTime : Nat
deriving DecidableEq, Repr

/-- Process a sequence of chat events in order on the single-threaded event
loop (each handler runs to completion). -/
def processChats (st : ServerState) : List ChatEvent → ServerState
  | [] => st
  | e :: es =>
      processChats
        (relayChat st e.dbTime e.pushTime e.senderId e.receiverId e.content).1
        es

/-- The message rows a run of `processChats` appends, given the value of the
`nextMessageId` counter when the run starts. -/
def eventMessages (n : Nat) : List ChatEvent → List Message
  | [] => []
  | e :: es =>
      { id := n, sender_id := e.senderId, receiver_id := e.receiverId,
        content := e.content, created_at := e.dbTime } :: eventMessages (n + 1) es

/-- First seed row inserted when the `users` table is empty (id 1). -/
def aarav : User :=
  { id := 1, name := "Aarav", email := "aarav@example.com",
    role := Role.friend, city := some "Mumbai", age := some 24,
    languages := some "Hindi, English", interests := some "Movies, Cricket",
    about := some "Love exploring new cafes and talking about cinema.",
    hourly_rate := some 800, verified := 1, rating := (48 : Rat) / 10 }

/-- Second seed row (id 2). -/
def ishani : User :=
  { id := 2, name := "Ishani", email := "ishani@example.com",
    role := Role.friend, city := some "Delhi", age := some 22,
    languages := some "Hindi, English, Punjabi",
    interests := some "Travel, Photography",
    about := some "Avid traveler looking for companions for city tours.",
    hourly_rate := some 1000, verified := 1, rating := (49 : Rat) / 10 }

/-- Third seed row (id 3). -/
def rohan : User :=
  { id := 3, name := "Rohan", email := "rohan@example.com",
    role := Role.friend, city := some "Bangalore", age := some 26,
    languages := some "Kannada, English", interests := some "Tech, Gaming",
    about := some "Let's grab a coffee and talk about the latest tech trends.",
    hourly_rate := some 750, verified := 1, rating := (47 : Rat) / 10 }

/-- Fourth seed row (id 4). -/
def priya : User :=
  { id := 4, name := "Priya", email := "priya@example.com",
    role := Role.friend, city := some "Pune", age := some 23,
    languages := some "Marathi, Hindi, English", interests := some "Books, Art",
    about := some "Quiet companion for library visits or art galleries.",
    hourly_rate := some 900, verified := 1, rating := (5 : Rat) }

/-- The seed rows inserted when the `users` table is empty
(ids 1 to 4 by `AUTOINCREMENT`). -/
def seedUsers : List User := [aarav, ishani, rohan, priya]

/-- A freshly initialized store: empty tables, `AUTOINCREMENT` counters at 1. -/
def emptyDB : DBState :=
  { users := [], bookings := [], nextBookingId := 1,
    messages := [], nextMessageId := 1 }

/-- The store right after seeding. -/
def seedDB : DBState :=
  { users := seedUsers, bookings := [], nextBookingId := 1,
    messages := [], nextMessageId := 1 }

/-! ## Registry lemmas -/

/-- The key list of the registry has no duplicates. -/
abbrev keysNodup (m : ClientMap) : Prop := (m.map Prod.fst).Nodup

theorem clientsLookup_delete_self (m : ClientMap) (u : Nat) :
    clientsLookup (clientsDelete m u) u = none := by
  unfold clientsLookup
  rw [Option.map_eq_none', List.find?_eq_none]
  intro x hx
  have hmem := List.mem_filter.mp hx
  simp only [bne_iff_ne, ne_eq] at hmem
  simp [hmem.2]

theorem clientsDelete_find?_of_ne (m : ClientMap) (u v : Nat) (hvu : v ≠ u) :
    (clientsDelete m u).find? (fun e => e.fst == v) =
      m.find? (fun e => e.fst == v) := by
  induction m with
  | nil => rfl
  | cons a m ih =>
    by_cases h : a.fst = u
    · have hd : clientsDelete (a :: m) u = clientsDelete m u := by
        simp [clientsDelete, List.filter_cons, h]
      have hp : ¬ ((a.fst == v) = true) := by
        simp only [beq_iff_eq, h]
        exact Ne.symm hvu
      rw [hd, List.find?_cons_of_neg m hp]
      exact ih
    · have hd : clientsDelete (a :: m) u = a :: clientsDelete m u := by
        simp [clientsDelete, List.filter_cons, h]
      rw [hd]
      by_cases h2 : a.fst = v
      · have hp : (a.fst == v) = true := by simp [h2]
        rw [List.find?_cons_of_pos (clientsDelete m u) hp,
          List.find?_cons_of_pos m hp]
      · have hp : ¬ ((a.fst == v) = true) := by simp [h2]
        rw [List.find?_cons_of_neg (clientsDelete m u) hp,
          List.find?_cons_of_neg m hp]
        exact ih

theorem clientsLookup_set_self (m : ClientMap) (u w : Nat) :
    clientsLookup (clientsSet m u w) u = some w := by
  unfold clientsSet clientsLookup
  rw [List.find?_append]
  have h1 : (clientsDelete m u).find? (fun e => e.fst == u) = none := by
    rw [List.find?_eq_none]
    intro x hx
    have hmem := List.mem_filter.mp hx
    simp only [bne_iff_ne, ne_eq] at hmem
    simp [hmem.2]
  rw [h1]
  simp [List.find?_cons]

theorem clientsLookup_set_other (m : ClientMap) (u w v : Nat) (hvu : v ≠ u) :
    clientsLookup (clientsSet m u w) v = clientsLookup m v := by
  unfold clientsSet clientsLookup
  rw [List.find?_append, clientsDelete_find?_of_ne m u v hvu]
  have h2 : [(u, w)].find? (fun e => e.fst == v) = none := by
    rw [List.find?_eq_none]
    intro x hx
    simp only [List.mem_singleton] at hx
    subst hx
    simp [Ne.symm hvu]
  rw [h2]
  cases m.find? (fun e => e.fst == v) <;> rfl

theorem keysNodup_delete (m : ClientMap) (u : Nat) (h : keysNodup m) :
    keysNodup (clientsDelete m u) := by
  have hsub : ((clientsDelete m u).map Prod.fst).Sublist (m.map Prod.fst) :=
    (List.filter_sublist m).map Prod.fst
  exact h.sublist hsub

theorem keysNodup_set (m : ClientMap) (u w : Nat) (h : keysNodup m) :
    keysNodup (clientsSet m u w) := by
  unfold clientsSet
  rw [keysNodup, List.map_append, List.nodup_append]
  refine ⟨keysNodup_delete m u h, List.nodup_singleton u, ?_⟩
  intro x hx hx2
  simp only [List.mem_map] at hx
  obtain ⟨e, he, rfl⟩ := hx
  have hne := (List.mem_filter.mp he).2
  simp only [bne_iff_ne, ne_eq] at hne
  simp only [List.map_cons, List.map_nil, List.mem_singleton] at hx2
  exact hne hx2

/-! ## Claim theorems: registry (C4, C9), history symmetry (C5),
failure semantics (C6) -/

/-- Claim C4: the registry binds each user id to at most one handle:
`clients.set(u, w)` makes `lookup u` return the new handle `w` (the old
binding is unreachable), leaves every other user's binding unchanged, and
preserves the one-binding-per-key shape of the map. -/
theorem registry_at_most_one_binding (m : ClientMap) (u w : Nat) :
    clientsLookup (clientsSet m u w) u = some w ∧
    (∀ v, v ≠ u → clientsLookup (clientsSet m u w) v = clientsLookup m v) ∧
    (keysNodup m → keysNodup (clientsSet m u w)) :=
  ⟨clientsLookup_set_self m u w,
   fun v hv => clientsLookup_set_other m u w v hv,
   keysNodup_set m u w⟩

theorem registry_at_most_one_binding_witness :
    clientsLookup (clientsSet [(1, 7), (2, 9)] 1 8) 1 = some 8 ∧
    clientsLookup (clientsSet [(1, 7), (2, 9)] 1 8) 2 =
      clientsLookup [(1, 7), (2, 9)] 2 ∧
    keysNodup (clientsSet [(1, 7), (2, 9)] 1 8) :=
  ⟨(registry_at_most_one_binding [(1, 7), (2, 9)] 1 8).1,
   (registry_at_most_one_binding [(1, 7), (2, 9)] 1 8).2.1 2 (by decide),
   (registry_at_most_one_binding [(1, 7), (2, 9)] 1 8).2.2 (by decide)⟩

/-- Claim C9: after user `A` authenticates on connection `c1` and then on
`c2` (so lookup returns `c2`), the close of `c1` deletes `A`'s binding by
the `userId` captured in `c1`'s closure, so lookup afterwards returns
absent even though `c2` was the most recent registration. -/
theorem close_unregisters_replaced_user (m : ClientMap) (c1 c2 A : Nat)
    (hA : A ≠ 0) :
    clientsLookup (handleAuth (handleAuth m c1 A).2 c2 A).2 A = some c2 ∧
    clientsLookup
      (handleClose (handleAuth (handleAuth m c1 A).2 c2 A).2
        (handleAuth m c1 A).1) A = none := by
  constructor
  · simp [handleAuth, hA, clientsLookup_set_self]
  · simp [handleAuth, handleClose, hA, clientsLookup_delete_self]

theorem close_unregisters_replaced_user_witness :
    clientsLookup (handleAuth (handleAuth [] 10 1).2 11 1).2 1 = some 11 ∧
    clientsLookup
      (handleClose (handleAuth (handleAuth [] 10 1).2 11 1).2
        (handleAuth [] 10 1).1) 1 = none :=
  close_unregisters_replaced_user [] 10 11 1 (by decide)

/-- Claim C5: the history query is symmetric in its two path parameters:
`GET /api/messages/a/b` and `GET /api/messages/b/a` return the same rows in
the same order. -/
theorem history_pair_symmetric (db : DBState) (a b : Nat) :
    getMessages db a b = getMessages db b a := by
  unfold getMessages
  congr 1
  refine List.filter_congr ?_
  intro m _
  unfold pairMatch
  exact Bool.or_comm _ _

/-- Claim C6: if the message `INSERT` fails, the whole chat handler fails
with an error before the push lookup is reached (no partial effect); if the
`INSERT` succeeds, the handler returns `ok` for every registry and socket
state, so an absent recipient or unreachable handle never fails the relay. -/
theorem relay_persistence_failure_fatal (st : ServerState)
    (dbNow pushNow senderId receiverId : Nat) (content : String) :
    handleChat st false dbNow pushNow senderId receiverId content =
      Except.error "SqliteError: message INSERT failed" ∧
    handleChat st true dbNow pushNow senderId receiverId content =
      Except.ok (relayChat st dbNow pushNow senderId receiverId content) :=
  ⟨rfl, rfl⟩

/-! ## Sort lemmas for the history query -/

theorem length_insertByCreatedAt (m : Message) (l : List Message) :
    (insertByCreatedAt m l).length = l.length + 1 := by
  induction l with
  | nil => rfl
  | cons x xs ih =>
    unfold insertByCreatedAt
    by_cases h : x.created_at < m.created_at
    · simp [h, ih]
    · simp [h]

theorem mem_insertByCreatedAt (a m : Message) (l : List Message) :
    a ∈ insertByCreatedAt m l ↔ a = m ∨ a ∈ l := by
  induction l with
  | nil => simp [insertByCreatedAt]
  | cons x xs ih =>
    unfold insertByCreatedAt
    by_cases h : x.created_at < m.created_at
    · simp only [h, if_true, List.mem_cons, ih]
      tauto
    · simp only [h, if_false, List.mem_cons]

theorem length_sortByCreatedAt (l : List Message) :
    (sortByCreatedAt l).length = l.length := by
  induction l with
  | nil => rfl
  | cons x xs ih => simp [sortByCreatedAt, length_insertByCreatedAt, ih]

theorem mem_sortByCreatedAt (a : Message) (l : List Message) :
    a ∈ sortByCreatedAt l ↔ a ∈ l := by
  induction l with
  | nil => simp [sortByCreatedAt]
  | cons x xs ih =>
    simp only [sortByCreatedAt, mem_insertByCreatedAt, ih, List.mem_cons]

theorem sortByCreatedAt_eq_self (l : List Message)
    (h : List.Chain' (fun x y => x.created_at ≤ y.created_at) l) :
    sortByCreatedAt l = l := by
  induction l with
  | nil => rfl
  | cons x xs ih =>
    have hx := ih h.tail
    unfold sortByCreatedAt
    rw [hx]
    cases xs with
    | nil => rfl
    | cons y ys =>
      unfold insertByCreatedAt
      have hxy : x.created_at ≤ y.created_at := (List.chain'_cons.mp h).1
      have hnlt : ¬ (y.created_at < x.created_at) := not_lt.mpr hxy
      simp [hnlt]

/-! ## Push payload characterization -/

theorem pushToReceiver_eq_some_iff (st : ServerState) (s r : Nat) (c : String)
    (now : Nat) :
    (pushToReceiver st s r c now =
        some { type := "chat", senderId := s, content := c, createdAt := now } ↔
      ∃ w, clientsLookup st.clients r = some w ∧
        wsReadyState st.sockets w = WsReadyState.OPEN) ∧
    (∀ p, pushToReceiver st s r c now = some p →
      p = { type := "chat", senderId := s, content := c, createdAt := now }) := by
  unfold pushToReceiver
  cases hl : clientsLookup st.clients r with
  | none => simp
  | some w =>
    by_cases ho : wsReadyState st.sockets w = WsReadyState.OPEN
    · simp [ho]
    · simp [ho]

/-! ## Claim theorems: relay persistence (C1), push condition (C2),
profile lookup (C7), booking creation (C8), push timestamp (C10) -/

/-- Claim C1: processing a chat event appends exactly one message row for
the pair, and that row is retrievable via the history query for
`(senderId, receiverId)` whatever the registry and socket states are: the
pair's rows grow by exactly that one row, the new row is a member of the
query result, and the query result's length grows by one. -/
theorem relay_persists_exactly_one (st : ServerState)
    (dbNow pushNow senderId receiverId : Nat) (content : String) :
    ((relayChat st dbNow pushNow senderId receiverId content).1.db.messages.filter
        (pairMatch senderId receiverId)) =
      st.db.messages.filter (pairMatch senderId receiverId) ++
        [{ id := st.db.nextMessageId, sender_id := senderId,
           receiver_id := receiverId, content := content,
           created_at := dbNow }] ∧
    ({ id := st.db.nextMessageId, sender_id := senderId,
       receiver_id := receiverId, content := content,
       created_at := dbNow } : Message) ∈
      getMessages (relayChat st dbNow pushNow senderId receiverId content).1.db
        senderId receiverId ∧
    (getMessages (relayChat st dbNow pushNow senderId receiverId content).1.db
        senderId receiverId).length =
      (getMessages st.db senderId receiverId).length + 1 := by
  have hmsgs :
      (relayChat st dbNow pushNow senderId receiverId content).1.db.messages =
        st.db.messages ++
          [{ id := st.db.nextMessageId, sender_id := senderId,
             receiver_id := receiverId, content := content,
             created_at := dbNow }] := rfl
  have hpm : pairMatch senderId receiverId
      { id := st.db.nextMessageId, sender_id := senderId,
        receiver_id := receiverId, content := content,
        created_at := dbNow } = true := by
    simp [pairMatch]
  have h1 :
      ((relayChat st dbNow pushNow senderId receiverId content).1.db.messages.filter
        (pairMatch senderId receiverId)) =
      st.db.messages.filter (pairMatch senderId receiverId) ++
        [{ id := st.db.nextMessageId, sender_id := senderId,
           receiver_id := receiverId, content := content,
           created_at := dbNow }] := by
    rw [hmsgs, List.filter_append]
    simp [hpm]
  refine ⟨h1, ?_, ?_⟩
  · rw [getMessages, mem_sortByCreatedAt, h1]
    simp
  · rw [getMessages, getMessages, length_sortByCreatedAt, length_sortByCreatedAt,
      h1, List.length_append]
    rfl

/-- Claim C2: the relay hands a payload
`{type:"chat", senderId, content, createdAt}` to the receiver's socket if
and only if the registry lookup at that moment returns a handle whose
`readyState` is `OPEN`; every payload it can hand over has exactly that
shape; the message row is appended regardless; and the handler reports
success to the event loop (no error surfaced to the sender) in every case. -/
theorem push_sent_iff_receiver_open (st : ServerState)
    (dbNow pushNow senderId receiverId : Nat) (content : String) :
    ((relayChat st dbNow pushNow senderId receiverId content).2 =
        some { type := "chat", senderId := senderId, content := content,
               createdAt := pushNow } ↔
      ∃ w, clientsLookup st.clients receiverId = some w ∧
        wsReadyState st.sockets w = WsReadyState.OPEN) ∧
    (∀ p, (relayChat st dbNow pushNow senderId receiverId content).2 = some p →
      p = { type := "chat", senderId := senderId, content := content,
            createdAt := pushNow }) ∧
    (relayChat st dbNow pushNow senderId receiverId content).1.db.messages =
      st.db.messages ++
        [{ id := st.db.nextMessageId, sender_id := senderId,
           receiver_id := receiverId, content := content,
           created_at := dbNow }] ∧
    handleChat st true dbNow pushNow senderId receiverId content =
      Except.ok (relayChat st dbNow pushNow senderId receiverId content) := by
  refine ⟨?_, ?_, rfl, rfl⟩
  · exact (pushToReceiver_eq_some_iff
      { st with db := insertMessage st.db dbNow senderId receiverId content }
      senderId receiverId content pushNow).1
  · exact (pushToReceiver_eq_some_iff
      { st with db := insertMessage st.db dbNow senderId receiverId content }
      senderId receiverId content pushNow).2

theorem push_sent_iff_receiver_open_witness :
    (relayChat { db := emptyDB, clients := [(2, 5)],
                 sockets := [(5, WsReadyState.OPEN)] } 0 1 1 2 "hi").2 =
      some { type := "chat", senderId := 1, content := "hi", createdAt := 1 } :=
  (push_sent_iff_receiver_open
    { db := emptyDB, clients := [(2, 5)], sockets := [(5, WsReadyState.OPEN)] }
    0 1 1 2 "hi").1.mpr ⟨5, rfl, rfl⟩

theorem find?_user_unique {l : List User} {id : Nat} {u : User}
    (hu : u ∈ l) (hid : u.id = id) (hrole : u.role = Role.friend)
    (hnodup : (l.map User.id).Nodup) :
    l.find? (fun x => x.id == id && decide (x.role = Role.friend)) = some u := by
  induction l with
  | nil => cases hu
  | cons a l ih =>
    rw [List.map_cons] at hnodup
    rcases List.mem_cons.mp hu with rfl | hu'
    · have hp : (u.id == id && decide (u.role = Role.friend)) = true := by
        simp [hid, hrole]
      rw [List.find?_cons_of_pos l hp]
    · have hna : a.id ≠ id := by
        intro hc
        have hmem : u.id ∈ l.map User.id := List.mem_map_of_mem User.id hu'
        rw [hid, ← hc] at hmem
        exact (List.nodup_cons.mp hnodup).1 hmem
      have hp : ¬ ((a.id == id && decide (a.role = Role.friend)) = true) := by
        simp [hna]
      rw [List.find?_cons_of_neg l hp]
      exact ih hu' (List.nodup_cons.mp hnodup).2

/-- Claim C7: `GET /api/friends/:id` returns a 404 (modelled as `none`)
exactly when no user row has this id together with the friend role, and
returns the user's row when one does (ids being unique, as the primary key
guarantees). -/
theorem friend_lookup_found_or_404 (db : DBState) (id : Nat) :
    ((∀ u ∈ db.users, ¬(u.id = id ∧ u.role = Role.friend)) →
      getFriend db id = none) ∧
    (∀ u, u ∈ db.users → u.id = id → u.role = Role.friend →
      (db.users.map User.id).Nodup → getFriend db id = some u) := by
  constructor
  · intro h
    unfold getFriend
    rw [List.find?_eq_none]
    intro u hu
    have hne := h u hu
    simp only [Bool.and_eq_true, beq_iff_eq, decide_eq_true_eq]
    intro hc
    exact hne hc
  · intro u hu hid hrole hnodup
    exact find?_user_unique hu hid hrole hnodup

theorem friend_lookup_found_or_404_witness :
    getFriend seedDB 999 = none ∧ getFriend seedDB 1 = some aarav :=
  ⟨(friend_lookup_found_or_404 seedDB 999).1 (by decide),
   (friend_lookup_found_or_404 seedDB 1).2 aarav (by simp [seedDB, seedUsers])
     rfl rfl (by decide)⟩

/-- Claim C8: `POST /api/bookings` appends one booking row carrying exactly
the request's field values (with `status` defaulting to `pending`), answers
with the assigned `lastInsertRowid`, and the row is retrievable from the
store by that id with those exact values, provided the assigned id is fresh
(as `AUTOINCREMENT` guarantees). -/
theorem booking_create_roundtrip (db : DBState)
    (dbNow customerId friendId : Nat) (activity duration : String)
    (hfresh : ∀ b ∈ db.bookings, b.id ≠ db.nextBookingId) :
    (createBooking db dbNow customerId friendId activity duration).2 =
      db.nextBookingId ∧
    getBookingById
        (createBooking db dbNow customerId friendId activity duration).1
        db.nextBookingId =
      some { id := db.nextBookingId, customer_id := customerId,
             friend_id := friendId, activity := activity,
             duration := duration, status := "pending",
             created_at := dbNow } := by
  refine ⟨rfl, ?_⟩
  unfold getBookingById
  have hb : (createBooking db dbNow customerId friendId activity duration).1.bookings =
      db.bookings ++
        [{ id := db.nextBookingId, customer_id := customerId,
           friend_id := friendId, activity := activity,
           duration := duration, status := "pending",
           created_at := dbNow }] := rfl
  rw [hb, List.find?_append]
  have h1 : db.bookings.find? (fun b => b.id == db.nextBookingId) = none := by
    rw [List.find?_eq_none]
    intro b hbmem
    simpa using hfresh b hbmem
  rw [h1]
  simp [List.find?_cons]

theorem booking_create_roundtrip_witness :
    (createBooking emptyDB 0 1 2 "Movie Partner" "1 Hour").2 = 1 ∧
    getBookingById (createBooking emptyDB 0 1 2 "Movie Partner" "1 Hour").1 1 =
      some { id := 1, customer_id := 1, friend_id := 2,
             activity := "Movie Partner", duration := "1 Hour",
             status := "pending", created_at := 0 } :=
  booking_create_roundtrip emptyDB 0 1 2 "Movie Partner" "1 Hour" (by decide)

/-- Claim C10: the `createdAt` of every delivered push payload is the wall
clock read at push time (`new Date().toISOString()`), not the `created_at`
the store assigned to the persisted row; and there are executions where the
two differ: every payload carries `pushNow`, and a concrete run with the
store clock at 0 and the push clock at 1 delivers a payload whose
`createdAt` differs from the persisted row's `created_at`. -/
theorem push_createdAt_is_push_time :
    (∀ (st : ServerState) (dbNow pushNow senderId receiverId : Nat)
        (content : String) (p : PushPayload),
        (relayChat st dbNow pushNow senderId receiverId content).2 = some p →
          p.createdAt = pushNow) ∧
    (∃ (st : ServerState) (dbNow pushNow senderId receiverId : Nat)
        (content : String) (p : PushPayload) (m : Message),
        (relayChat st dbNow pushNow senderId receiverId content).2 = some p ∧
        (relayChat st dbNow pushNow senderId receiverId
            content).1.db.messages.getLast? = some m ∧
        m.sender_id = senderId ∧ m.receiver_id = receiverId ∧
        m.content = content ∧ m.created_at ≠ p.createdAt) := by
  constructor
  · intro st dbNow pushNow senderId receiverId content p hp
    have hp' : pushToReceiver
        { st with db := insertMessage st.db dbNow senderId receiverId content }
        senderId receiverId content pushNow = some p := hp
    have := (pushToReceiver_eq_some_iff
      { st with db := insertMessage st.db dbNow senderId receiverId content }
      senderId receiverId content pushNow).2 p hp'
    rw [this]
  · exact ⟨{ db := emptyDB, clients := [(2, 5)],
             sockets := [(5, WsReadyState.OPEN)] }, 0, 1, 1, 2, "hi",
           { type := "chat", senderId := 1, content := "hi", createdAt := 1 },
           { id := 1, sender_id := 1, receiver_id := 2, content := "hi",
             created_at := 0 },
           rfl, rfl, rfl, rfl, rfl, by decide⟩

theorem push_createdAt_is_push_time_witness :
    ({ type := "chat", senderId := 1, content := "hi",
       createdAt := 1 } : PushPayload).createdAt = 1 :=
  push_createdAt_is_push_time.1
    { db := emptyDB, clients := [(2, 5)], sockets := [(5, WsReadyState.OPEN)] }
    0 1 1 2 "hi"
    { type := "chat", senderId := 1, content := "hi", createdAt := 1 } rfl

/-! ## Processing a sequence of chat events (C3) -/

/-- The chat event concerns the unordered pair `{a, b}`. -/
abbrev eventForPair (a b : Nat) (e : ChatEvent) : Prop :=
  (e.senderId = a ∧ e.receiverId = b) ∨ (e.senderId = b ∧ e.receiverId = a)

theorem processChats_messages (evs : List ChatEvent) (st : ServerState) :
    (processChats st evs).db.messages =
      st.db.messages ++ eventMessages st.db.nextMessageId evs ∧
    (processChats st evs).db.nextMessageId =
      st.db.nextMessageId + evs.length := by
  induction evs generalizing st with
  | nil => simp [processChats, eventMessages]
  | cons e es ih =>
    have hstep : processChats st (e :: es) =
        processChats
          (relayChat st e.dbTime e.pushTime e.senderId e.receiverId e.content).1
          es := rfl
    have h1 : (relayChat st e.dbTime e.pushTime e.senderId e.receiverId
        e.content).1.db.messages =
        st.db.messages ++
          [{ id := st.db.nextMessageId, sender_id := e.senderId,
             receiver_id := e.receiverId, content := e.content,
             created_at := e.dbTime }] := rfl
    have h2 : (relayChat st e.dbTime e.pushTime e.senderId e.receiverId
        e.content).1.db.nextMessageId = st.db.nextMessageId + 1 := rfl
    obtain ⟨ha, hb⟩ :=
      ih (relayChat st e.dbTime e.pushTime e.senderId e.receiverId e.content).1
    constructor
    · rw [hstep, ha, h1, h2, List.append_assoc]
      rfl
    · rw [hstep, hb, h2, List.length_cons]
      omega

theorem filter_eventMessages (a b : Nat) (n : Nat) (evs : List ChatEvent)
    (hpair : ∀ e ∈ evs, eventForPair a b e) :
    (eventMessages n evs).filter (pairMatch a b) = eventMessages n evs := by
  induction evs generalizing n with
  | nil => rfl
  | cons e es ih =>
    have hp : pairMatch a b
        { id := n, sender_id := e.senderId, receiver_id := e.receiverId,
          content := e.content, created_at := e.dbTime } = true := by
      rcases hpair e (List.mem_cons_self e es) with ⟨h1, h2⟩ | ⟨h1, h2⟩ <;>
        simp [pairMatch, h1, h2]
    rw [eventMessages, List.filter_cons_of_pos hp,
      ih (n + 1) (fun x hx => hpair x (List.mem_cons_of_mem e hx))]

theorem createdAt_eventMessages (n : Nat) (evs : List ChatEvent) :
    (eventMessages n evs).map Message.created_at =
      evs.map ChatEvent.dbTime := by
  induction evs generalizing n with
  | nil => rfl
  | cons e es ih => simp [eventMessages, ih]

/-- Claim C3: for a run of chat events all concerning the pair `{a, b}`,
whose store timestamps continue non-decreasingly from the pair's existing
rows (the store clock never goes backwards), the history query returns the
persisted rows exactly in server processing order — the pre-existing rows
followed by the events in the order processed — and the returned
`created_at` sequence is non-decreasing. -/
theorem history_order_matches_processing (st : ServerState)
    (evs : List ChatEvent) (a b : Nat)
    (hpair : ∀ e ∈ evs, eventForPair a b e)
    (hchain : List.Chain' (· ≤ ·)
      ((st.db.messages.filter (pairMatch a b)).map Message.created_at ++
        evs.map ChatEvent.dbTime)) :
    (processChats st evs).db.messages.filter (pairMatch a b) =
      st.db.messages.filter (pairMatch a b) ++
        eventMessages st.db.nextMessageId evs ∧
    getMessages (processChats st evs).db a b =
      (processChats st evs).db.messages.filter (pairMatch a b) ∧
    List.Chain' (· ≤ ·)
      ((getMessages (processChats st evs).db a b).map Message.created_at) := by
  have hmsg := (processChats_messages evs st).1
  have hfilter : (processChats st evs).db.messages.filter (pairMatch a b) =
      st.db.messages.filter (pairMatch a b) ++
        eventMessages st.db.nextMessageId evs := by
    rw [hmsg, List.filter_append,
      filter_eventMessages a b st.db.nextMessageId evs hpair]
  have hmap : ((processChats st evs).db.messages.filter
        (pairMatch a b)).map Message.created_at =
      (st.db.messages.filter (pairMatch a b)).map Message.created_at ++
        evs.map ChatEvent.dbTime := by
    rw [hfilter, List.map_append, createdAt_eventMessages]
  have hchain2 : List.Chain'
      (fun x y : Message => x.created_at ≤ y.created_at)
      ((processChats st evs).db.messages.filter (pairMatch a b)) := by
    have h := hchain
    rw [← hmap] at h
    exact (List.chain'_map Message.created_at).mp h
  have hsort : getMessages (processChats st evs).db a b =
      (processChats st evs).db.messages.filter (pairMatch a b) := by
    rw [getMessages]
    exact sortByCreatedAt_eq_self _ hchain2
  refine ⟨hfilter, hsort, ?_⟩
  rw [hsort, hmap]
  exact hchain

/-- Two chat events for the pair `{1, 2}`, one in each direction, with
non-decreasing store timestamps. -/
def sampleChats : List ChatEvent :=
  [{ senderId := 1, receiverId := 2, content := "first", dbTime := 0,
     pushTime := 0 },
   { senderId := 2, receiverId := 1, content := "second", dbTime := 1,
     pushTime := 1 }]

theorem history_order_matches_processing_witness :
    getMessages
        (processChats { db := emptyDB, clients := [], sockets := [] }
          sampleChats).db 1 2 =
      (processChats { db := emptyDB, clients := [], sockets := [] }
          sampleChats).db.messages.filter (pairMatch 1 2) :=
  (history_order_matches_processing
    { db := emptyDB, clients := [], sockets := [] } sampleChats 1 2
    (by decide) (by simp [emptyDB, sampleChats, List.chain'_cons])).2.1
